import Mathlib

/-!
Verification of the PEL code-request workflow front-end.

The development shallowly embeds the data layer and the approval logic of
the repository: the change-tracking comparator (`src/lib/changeTracking.ts`),
the local-object-store operations (`storage.ts`, in its revision carrying
`markRequestCompleted` and the nine-literal `Request.status` union), and the
`ApprovalDashboard` transition helpers `getNextStatus` / `canApprove`.

Modelling conventions:
* JavaScript runtime values that flow through the comparator are modelled by
  `JSValue`; numbers are modelled as integers (the fields compared here are
  strings and integral percentages).
* ISO-8601 timestamp strings are represented by their epoch-millisecond value,
  i.e. the number `Date.prototype.getTime` returns for them; `new Date()` is an
  explicit `now` parameter.
* An IndexedDB object store is a list of records; `put` replaces the first
  record with the same key or appends, `get` is `List.find?` on the key.
-/

/-- A JavaScript runtime value as it appears in the compared objects:
`undefined`, `null`, a boolean, a number (integral here), or a string. -/
inductive JSValue where
  | jsUndefined : JSValue
  | nullv : JSValue
  | bool : Bool → JSValue
  | num : Int → JSValue
  | str : String → JSValue
deriving DecidableEq, Repr

/-- JavaScript truthiness test: `undefined`, `null`, `false`, `0` and `""`
are falsy. -/
def jsFalsy : JSValue → Bool
  | .jsUndefined => true
  | .nullv => true
  | .bool b => !b
  | .num n => n == 0
  | .str s => s == ""

/-- `String(v)` for a JavaScript value (integral numbers print in decimal). -/
def jsString : JSValue → String
  | .jsUndefined => "undefined"
  | .nullv => "null"
  | .bool b => if b then "true" else "false"
  | .num n => toString n
  | .str s => s

/-- The conversion `String(value || '')` used by `compareObjects`: a falsy
value collapses to the empty string before printing. -/
def stringOrEmpty (v : JSValue) : String :=
  if jsFalsy v then "" else jsString v

/-- `value || ''` as stored into a `FieldChange` record. -/
def orEmptyVal (v : JSValue) : JSValue :=
  if jsFalsy v then .str "" else v

/-- A JavaScript object: an association list from property names to values
(property names are unique in a live object; access takes the first binding). -/
abbrev JSObj := List (String × JSValue)

/-- Property access `obj?.[field]`: the first binding, `undefined` if absent. -/
def getField (o : JSObj) (k : String) : JSValue :=
  (o.lookup k).getD .jsUndefined

/-- `Object.keys`. -/
def objKeys (o : JSObj) : List String :=
  o.map (·.1)

/-- Helper for `jsSet`: drop elements already seen, keeping first occurrences. -/
def jsSetAux : List String → List String → List String
  | [], _ => []
  | x :: xs, seen =>
    if x ∈ seen then jsSetAux xs seen else x :: jsSetAux xs (x :: seen)

/-- `new Set(l)` traversed in insertion order: duplicates removed, first
occurrences kept. -/
def jsSet (l : List String) : List String :=
  jsSetAux l []

/-- The request kind, `'plant' | 'company'`. -/
inductive ReqType where
  | plant : ReqType
  | company : ReqType
deriving DecidableEq, Repr

/-- Display labels for plant-code fields (`PLANT_CODE_LABELS`). -/
def PLANT_CODE_LABELS : List (String × String) :=
  [("companyCode", "Company Code"),
   ("plantCode", "Plant Code"),
   ("nameOfPlant", "Name of Plant"),
   ("addressOfPlant", "Address of Plant"),
   ("purchaseOrganization", "Purchase Organization"),
   ("nameOfPurchaseOrganization", "Name of Purchase Organization"),
   ("salesOrganization", "Sales Organization"),
   ("nameOfSalesOrganization", "Name of Sales Organization"),
   ("profitCenter", "Profit Center"),
   ("nameOfProfitCenter", "Name of Profit Center"),
   ("costCenters", "Cost Centers"),
   ("nameOfCostCenters", "Name of Cost Centers"),
   ("projectCode", "Project Code"),
   ("projectCodeDescription", "Project Code Description"),
   ("storageLocationCode", "Storage Location Code"),
   ("storageLocationDescription", "Storage Location Description"),
   ("gstCertificate", "GST Certificate")]

/-- Display labels for company-code fields (`COMPANY_CODE_LABELS`). -/
def COMPANY_CODE_LABELS : List (String × String) :=
  [("companyCode", "Company Code"),
   ("nameOfCompanyCode", "Name of Company Code"),
   ("shareholdingPercentage", "Shareholding Percentage"),
   ("segment", "Segment"),
   ("nameOfSegment", "Name of Segment"),
   ("gstCertificate", "GST Certificate"),
   ("cin", "CIN"),
   ("pan", "PAN")]

/-- One reported field difference (`FieldChange`). -/
structure FieldChange where
  field : String
  oldValue : JSValue
  newValue : JSValue
  label : String
deriving DecidableEq, Repr

/-- Result of `compareObjects` (`CompareResult`). -/
structure CompareResult where
  hasChanges : Bool
  changes : List FieldChange
  changedFields : List String
deriving DecidableEq, Repr

/-- Metadata fields skipped by the comparator. -/
def metadataFields : List String :=
  ["requestId", "version", "createdAt", "updatedAt"]

/-- Flat field-by-field string diff of two objects (`compareObjects`): every
field of either object except the metadata fields is compared after the
conversion `String(value || '')`. -/
def compareObjects (oldObj newObj : JSObj) (type : ReqType) : CompareResult :=
  let labels := match type with
    | .plant => PLANT_CODE_LABELS
    | .company => COMPANY_CODE_LABELS
  let allFields := jsSet (objKeys oldObj ++ objKeys newObj)
  let changes := allFields.filterMap (fun field =>
    if field ∈ metadataFields then
      none
    else
      let oldValue := getField oldObj field
      let newValue := getField newObj field
      let oldStr := stringOrEmpty oldValue
      let newStr := stringOrEmpty newValue
      if oldStr ≠ newStr then
        some { field := field
               oldValue := orEmptyVal oldValue
               newValue := orEmptyVal newValue
               label := (labels.lookup field).getD field }
      else
        none)
  { hasChanges := !changes.isEmpty
    changes := changes
    changedFields := changes.map (·.field) }

theorem mem_jsSetAux {l : List String} {seen : List String} {x : String} :
    x ∈ jsSetAux l seen ↔ x ∈ l ∧ x ∉ seen := by
  induction l generalizing seen with
  | nil => simp [jsSetAux]
  | cons y ys ih =>
    simp only [jsSetAux]
    by_cases hy : y ∈ seen
    · rw [if_pos hy, ih]
      simp only [List.mem_cons]
      constructor
      · rintro ⟨h1, h2⟩; exact ⟨Or.inr h1, h2⟩
      · rintro ⟨rfl | h1, h2⟩
        · exact absurd hy h2
        · exact ⟨h1, h2⟩
    · rw [if_neg hy]
      simp only [List.mem_cons, ih]
      constructor
      · rintro (rfl | ⟨h1, h2⟩)
        · exact ⟨Or.inl rfl, hy⟩
        · exact ⟨Or.inr h1, fun hc => h2 (Or.inr hc)⟩
      · rintro ⟨rfl | h1, h2⟩
        · exact Or.inl rfl
        · by_cases hx : x = y
          · exact Or.inl hx
          · refine Or.inr ⟨h1, fun hc => ?_⟩
            rcases hc with h | h
            · exact hx h
            · exact h2 h

theorem mem_jsSet {l : List String} {x : String} : x ∈ jsSet l ↔ x ∈ l := by
  simp [jsSet, mem_jsSetAux]

theorem mem_changedFields_iff (oldObj newObj : JSObj) (type : ReqType)
    (f : String) :
    f ∈ (compareObjects oldObj newObj type).changedFields ↔
      f ∈ objKeys oldObj ++ objKeys newObj ∧
      f ∉ metadataFields ∧
      stringOrEmpty (getField oldObj f) ≠ stringOrEmpty (getField newObj f) := by
  cases type <;>
  · simp only [compareObjects, List.mem_map, List.mem_filterMap]
    constructor
    · rintro ⟨c, ⟨a, ha, hc⟩, rfl⟩
      rw [mem_jsSet] at ha
      by_cases hmeta : a ∈ metadataFields
      · rw [if_pos hmeta] at hc; cases hc
      · rw [if_neg hmeta] at hc
        by_cases hs : stringOrEmpty (getField oldObj a) ≠ stringOrEmpty (getField newObj a)
        · rw [if_pos hs] at hc
          injection hc with hc
          subst hc
          exact ⟨ha, hmeta, hs⟩
        · rw [if_neg hs] at hc; cases hc
    · rintro ⟨hmem, hmeta, hne⟩
      exact ⟨_, ⟨f, mem_jsSet.mpr hmem, by rw [if_neg hmeta, if_pos hne]⟩, rfl⟩

/-- A workflow user record (`User`). -/
structure User where
  email : String
  role : String
  createdAt : Int
deriving DecidableEq, Repr

/-- A request record (`Request`): the `status` union type of the storage
revision carrying `markRequestCompleted` lists the nine literals collected in
`requestStatusLiterals`; at runtime the field is a plain string. -/
structure Request where
  requestId : String
  type : ReqType
  title : String
  status : String
  createdBy : String
  createdAt : Int
  updatedAt : Int
  version : Int
  isCompleted : Option Bool := none
  completedAt : Option Int := none
  turnaroundTime : Option Int := none
  tat : Option Int := none
deriving DecidableEq, Repr

/-- The nine literals of the `Request.status` union type. -/
def requestStatusLiterals : List String :=
  ["draft", "pending-secretary", "pending-siva", "pending-raghu",
   "pending-manoj", "approved", "rejected", "sap-updated", "completed"]

/-- A history-log record (`HistoryLog`); its free-form `metadata` object is a
`JSObj`. -/
structure HistoryLog where
  requestId : String
  action : String
  user : String
  timestamp : Int
  metadata : JSObj
deriving DecidableEq, Repr

/-- Plant-code detail record (`PlantCodeDetails`), keyed by
`[requestId, version]`. -/
structure PlantCodeDetails where
  requestId : String
  companyCode : String
  gstCertificate : String
  plantCode : String
  nameOfPlant : String
  addressOfPlant : String
  purchaseOrganization : String
  nameOfPurchaseOrganization : String
  salesOrganization : String
  nameOfSalesOrganization : String
  profitCenter : String
  nameOfProfitCenter : String
  costCenters : String
  nameOfCostCenters : String
  projectCode : String
  projectCodeDescription : String
  storageLocationCode : String
  storageLocationDescription : String
  version : Int
deriving DecidableEq, Repr

/-- Company-code detail record (`CompanyCodeDetails`), keyed by
`[requestId, version]`. -/
structure CompanyCodeDetails where
  requestId : String
  companyCode : String
  nameOfCompanyCode : String
  shareholdingPercentage : Int
  gstCertificate : String
  cin : String
  pan : String
  segment : String
  nameOfSegment : String
  version : Int
deriving DecidableEq, Repr

/-- `get` on the `requests` store (key path `requestId`). -/
def findRequest (store : List Request) (requestId : String) : Option Request :=
  store.find? (fun r => r.requestId == requestId)

/-- `put` on the `requests` store: replace the record with the same key, or
add the record. -/
def putRequest : List Request → Request → List Request
  | [], r => [r]
  | x :: xs, r =>
    if x.requestId == r.requestId then r :: xs else x :: putRequest xs r

/-- `put` on the `historyLogs` store (key path `[requestId, timestamp]`). -/
def putHistoryLog : List HistoryLog → HistoryLog → List HistoryLog
  | [], h => [h]
  | x :: xs, h =>
    if x.requestId == h.requestId && x.timestamp == h.timestamp then
      h :: xs
    else
      x :: putHistoryLog xs h

/-- `put` on the `plantCodeDetails` store (key path `[requestId, version]`). -/
def putPlantCodeDetails : List PlantCodeDetails → PlantCodeDetails → List PlantCodeDetails
  | [], d => [d]
  | x :: xs, d =>
    if x.requestId == d.requestId && x.version == d.version then
      d :: xs
    else
      x :: putPlantCodeDetails xs d

/-- `getUserRole`: look the email up in the `users` store and fall back to
`'requestor'` (`user?.role || 'requestor'`). -/
def getUserRole (users : List User) (email : String) : String :=
  match users.find? (fun u => u.email == email) with
  | some user => if user.role == "" then "requestor" else user.role
  | none => "requestor"

/-- `updateRequestStatus`: fetch the request, overwrite its `status`, refresh
`updatedAt`, and put it back; a missing id leaves the store untouched. -/
def updateRequestStatus (store : List Request) (requestId status : String)
    (now : Int) : List Request :=
  match findRequest store requestId with
  | none => store
  | some request =>
      putRequest store { request with status := status, updatedAt := now }

/-- Milliseconds per day, the divisor `1000 * 60 * 60 * 24`. -/
def msPerDay : Int := 1000 * 60 * 60 * 24

/-- `Math.ceil (a / b)` on exact integer arithmetic (for positive `b`). -/
def ceilOfDiv (a b : Int) : Int := -((-a).fdiv b)

/-- `markRequestCompleted`: when the request exists, stamp it completed (status
`'completed'`, `isCompleted`, `completedAt`, refreshed `updatedAt`), record the
turnaround time in days (ceiling of the elapsed time over a day), and log an
`'update-sap'` history entry; otherwise change nothing. -/
def markRequestCompleted (requests : List Request) (logs : List HistoryLog)
    (requestId completedBy : String) (now : Int) :
    List Request × List HistoryLog :=
  match findRequest requests requestId with
  | none => (requests, logs)
  | some request =>
      let completedAt := now
      let turnaroundTime := ceilOfDiv (completedAt - request.createdAt) msPerDay
      let request' := { request with
        status := "completed"
        isCompleted := some true
        completedAt := some completedAt
        turnaroundTime := some turnaroundTime
        updatedAt := completedAt }
      (putRequest requests request',
       putHistoryLog logs
         { requestId := requestId
           action := "update-sap"
           user := completedBy
           timestamp := completedAt
           metadata := [("turnaroundTime", .num turnaroundTime),
                        ("completedBy", .str completedBy)] })

/-- An approval decision, `'approved' | 'rejected'`. -/
inductive Decision where
  | approved : Decision
  | rejected : Decision
deriving DecidableEq, Repr

/-- The `approvalFlow` lookup table of the `ApprovalDashboard`. -/
def approvalFlow : List (String × String) :=
  [("pending", "secretary-review"),
   ("secretary-review", "finance-review"),
   ("finance-review", "raghu-review"),
   ("raghu-review", "siva-review"),
   ("siva-review", "approved")]

/-- `getNextStatus` of the `ApprovalDashboard`: a rejection always yields
`'rejected'`; an approval advances along `approvalFlow`, defaulting to the
unchanged status (`approvalFlow[currentStatus] || currentStatus`). -/
def getNextStatus (currentStatus : String) (userRole : String)
    (decision : Decision) : String :=
  match decision with
  | .rejected => "rejected"
  | .approved => (approvalFlow.lookup currentStatus).getD currentStatus

/-- The `statusRoleMap` lookup table of the `ApprovalDashboard`. -/
def statusRoleMap : List (String × String) :=
  [("pending", "secretary"),
   ("secretary-review", "finance"),
   ("finance-review", "raghu"),
   ("raghu-review", "siva")]

/-- `canApprove` of the `ApprovalDashboard`: the user may act on a request
exactly when `statusRoleMap[request.status] === userRole` (a status missing
from the table maps to `undefined`, which equals no role string). -/
def canApprove (status : String) (userRole : String) : Bool :=
  statusRoleMap.lookup status == some userRole

/-- One approval action in the `ApprovalDashboard`: some role the dashboard
permits (`canApprove`) decides, and the status moves to `getNextStatus`. -/
def ApprovalStep (s s' : String) : Prop :=
  ∃ role decision, canApprove s role = true ∧ s' = getNextStatus s role decision

/-- Every status value `getNextStatus` can produce other than echoing its
input: `'rejected'` plus the range of the `approvalFlow` table. -/
def approvalTransitionOutputs : List String :=
  "rejected" :: approvalFlow.map (·.2)

/-- The distinct status values counted by the spec: the literals of the
`Request.status` union type together with the outputs of the approval
transition function. -/
def statusUniverse : List String :=
  jsSet (requestStatusLiterals ++ approvalTransitionOutputs)

/-- The descending-version sort `allVersions.sort((a, b) => b.version -
a.version)` followed by `[0] || null`, generic in the version accessor. -/
def latestByVersion (ver : α → Int) (l : List α) : Option α :=
  (l.mergeSort (fun a b => ver b ≤ ver a)).head?

/-- `getLatestRequestDetails`: pick the store for the request type, collect
the records of the request (the `requestId` secondary index), and return the
one with the greatest version, or null. -/
def getLatestRequestDetails (plantStore : List PlantCodeDetails)
    (companyStore : List CompanyCodeDetails) (requestId : String)
    (type : ReqType) : Option (PlantCodeDetails ⊕ CompanyCodeDetails) :=
  match type with
  | .plant =>
      (latestByVersion PlantCodeDetails.version
        (plantStore.filter (fun d => d.requestId == requestId))).map Sum.inl
  | .company =>
      (latestByVersion CompanyCodeDetails.version
        (companyStore.filter (fun d => d.requestId == requestId))).map Sum.inr

/-- The data entered in the plant-code form (`formData`), without metadata. -/
structure PlantFormData where
  plantCode : String
  nameOfPlant : String
  companyCode : String
  gstCertificate : String
  addressOfPlant : String
  purchaseOrganization : String
  nameOfPurchaseOrganization : String
  salesOrganization : String
  nameOfSalesOrganization : String
  profitCenter : String
  nameOfProfitCenter : String
  costCenters : String
  nameOfCostCenters : String
  projectCode : String
  projectCodeDescription : String
  storageLocationCode : String
  storageLocationDescription : String
deriving DecidableEq, Repr

/-- The plant form data as the runtime object handed to `compareObjects`. -/
def plantFormToObj (f : PlantFormData) : JSObj :=
  [("plantCode", .str f.plantCode),
   ("nameOfPlant", .str f.nameOfPlant),
   ("companyCode", .str f.companyCode),
   ("gstCertificate", .str f.gstCertificate),
   ("addressOfPlant", .str f.addressOfPlant),
   ("purchaseOrganization", .str f.purchaseOrganization),
   ("nameOfPurchaseOrganization", .str f.nameOfPurchaseOrganization),
   ("salesOrganization", .str f.salesOrganization),
   ("nameOfSalesOrganization", .str f.nameOfSalesOrganization),
   ("profitCenter", .str f.profitCenter),
   ("nameOfProfitCenter", .str f.nameOfProfitCenter),
   ("costCenters", .str f.costCenters),
   ("nameOfCostCenters", .str f.nameOfCostCenters),
   ("projectCode", .str f.projectCode),
   ("projectCodeDescription", .str f.projectCodeDescription),
   ("storageLocationCode", .str f.storageLocationCode),
   ("storageLocationDescription", .str f.storageLocationDescription)]

/-- A stored plant detail record as the runtime object handed to
`compareObjects` (the metadata entries `requestId` and `version` are present
but skipped by the comparator). -/
def plantDetailsToObj (d : PlantCodeDetails) : JSObj :=
  [("requestId", .str d.requestId),
   ("companyCode", .str d.companyCode),
   ("gstCertificate", .str d.gstCertificate),
   ("plantCode", .str d.plantCode),
   ("nameOfPlant", .str d.nameOfPlant),
   ("addressOfPlant", .str d.addressOfPlant),
   ("purchaseOrganization", .str d.purchaseOrganization),
   ("nameOfPurchaseOrganization", .str d.nameOfPurchaseOrganization),
   ("salesOrganization", .str d.salesOrganization),
   ("nameOfSalesOrganization", .str d.nameOfSalesOrganization),
   ("profitCenter", .str d.profitCenter),
   ("nameOfProfitCenter", .str d.nameOfProfitCenter),
   ("costCenters", .str d.costCenters),
   ("nameOfCostCenters", .str d.nameOfCostCenters),
   ("projectCode", .str d.projectCode),
   ("projectCodeDescription", .str d.projectCodeDescription),
   ("storageLocationCode", .str d.storageLocationCode),
   ("storageLocationDescription", .str d.storageLocationDescription),
   ("version", .num d.version)]

/-- `{requestId: newRequestId, ...formData, version: 1}` as saved by the
change-request branch. -/
def plantDetailsOfForm (requestId : String) (f : PlantFormData) :
    PlantCodeDetails :=
  { requestId := requestId
    companyCode := f.companyCode
    gstCertificate := f.gstCertificate
    plantCode := f.plantCode
    nameOfPlant := f.nameOfPlant
    addressOfPlant := f.addressOfPlant
    purchaseOrganization := f.purchaseOrganization
    nameOfPurchaseOrganization := f.nameOfPurchaseOrganization
    salesOrganization := f.salesOrganization
    nameOfSalesOrganization := f.nameOfSalesOrganization
    profitCenter := f.profitCenter
    nameOfProfitCenter := f.nameOfProfitCenter
    costCenters := f.costCenters
    nameOfCostCenters := f.nameOfCostCenters
    projectCode := f.projectCode
    projectCodeDescription := f.projectCodeDescription
    storageLocationCode := f.storageLocationCode
    storageLocationDescription := f.storageLocationDescription
    version := 1 }

/-- The slice of the local database touched by the plant change-request
submission (the notification records written further down the handler are
outside the modelled state). -/
structure StoreState where
  requests : List Request
  plantDetails : List PlantCodeDetails
  historyLogs : List HistoryLog
deriving DecidableEq, Repr

/-- The change-request branch of the plant form's `handleSubmit`
(`isChangeRequest && originalData`): diff the form data against
`originalData` — the latest stored detail record loaded by
`loadExistingData` — and abort when nothing changed; otherwise save a fresh
request with status `'pending-secretary'`, its detail record at version 1, and
a `'create'` history log. -/
def submitPlantChangeRequest (st : StoreState) (originalData : PlantCodeDetails)
    (formData : PlantFormData) (userEmail : String)
    (origRequestId newRequestId : String) (now : Int) : StoreState :=
  let comparison :=
    compareObjects (plantDetailsToObj originalData) (plantFormToObj formData)
      .plant
  if comparison.hasChanges = false then
    st
  else
    let changeRequest : Request :=
      { requestId := newRequestId
        type := .plant
        title := "Change Request - " ++ formData.plantCode
        status := "pending-secretary"
        createdBy := userEmail
        createdAt := now
        updatedAt := now
        version := 1 }
    { requests := putRequest st.requests changeRequest
      plantDetails :=
        putPlantCodeDetails st.plantDetails
          (plantDetailsOfForm newRequestId formData)
      historyLogs :=
        putHistoryLog st.historyLogs
          { requestId := newRequestId
            action := "create"
            user := userEmail
            timestamp := now
            metadata := [("isChangeRequest", .bool true),
                         ("originalRequestId", .str origRequestId)] } }

theorem bool_eq_false {b : Bool} (h : ¬b = true) : b = false := by
  cases b
  · rfl
  · exact absurd rfl h

theorem findRequest_cons (x : Request) (xs : List Request) (key : String) :
    findRequest (x :: xs) key =
      (bif x.requestId == key then some x else findRequest xs key) := rfl

theorem findRequest_key {store : List Request} {key : String} {r : Request}
    (h : findRequest store key = some r) : r.requestId = key := by
  have h' : store.find? (fun q => q.requestId == key) = some r := h
  have hp := List.find?_some h'
  exact eq_of_beq hp

theorem findRequest_putRequest (store : List Request) (r : Request) :
    findRequest (putRequest store r) r.requestId = some r := by
  induction store with
  | nil =>
    show findRequest [r] r.requestId = some r
    rw [findRequest_cons, beq_self_eq_true, cond_true]
  | cons x xs ih =>
    simp only [putRequest]
    by_cases h : (x.requestId == r.requestId) = true
    · rw [if_pos h, findRequest_cons, beq_self_eq_true, cond_true]
    · rw [if_neg h, findRequest_cons, bool_eq_false h, cond_false]
      exact ih

theorem findRequest_putRequest_ne (store : List Request) (r : Request)
    (key : String) (hne : key ≠ r.requestId) :
    findRequest (putRequest store r) key = findRequest store key := by
  have hbr : (r.requestId == key) = false :=
    bool_eq_false (fun hc => hne (eq_of_beq hc).symm)
  induction store with
  | nil =>
    show findRequest [r] key = findRequest [] key
    rw [findRequest_cons, hbr, cond_false]
  | cons x xs ih =>
    simp only [putRequest]
    by_cases h : (x.requestId == r.requestId) = true
    · rw [if_pos h]
      have hx : x.requestId = r.requestId := eq_of_beq h
      have hbx : (x.requestId == key) = false := by rw [hx]; exact hbr
      rw [findRequest_cons, hbr, cond_false, findRequest_cons, hbx, cond_false]
    · rw [if_neg h, findRequest_cons, findRequest_cons, ih]

theorem mem_putHistoryLog (logs : List HistoryLog) (h : HistoryLog) :
    h ∈ putHistoryLog logs h := by
  induction logs with
  | nil => exact List.mem_singleton.mpr rfl
  | cons x xs ih =>
    simp only [putHistoryLog]
    by_cases hk : (x.requestId == h.requestId && x.timestamp == h.timestamp) = true
    · rw [if_pos hk]; exact List.mem_cons_self h xs
    · rw [if_neg hk]; exact List.mem_cons_of_mem x ih

/-- C10: an email with no record in the users store is treated as a plain
requestor: `getUserRole` falls back to `'requestor'` instead of failing. -/
theorem getUserRole_unknown_email (users : List User) (email : String)
    (h : users.find? (fun u => u.email == email) = none) :
    getUserRole users email = "requestor" := by
  simp [getUserRole, h]

theorem getUserRole_unknown_email_witness :
    getUserRole [] "nobody@pel.com" = "requestor" :=
  getUserRole_unknown_email [] "nobody@pel.com" rfl

/-- C4: `updateRequestStatus` overwrites the status of the addressed request
unconditionally and refreshes `updatedAt`, leaves all its other fields and all
other records unchanged, and does nothing when the id is absent. -/
theorem updateRequestStatus_spec (store : List Request)
    (requestId status : String) (now : Int) :
    (∀ r, findRequest store requestId = some r →
       findRequest (updateRequestStatus store requestId status now) requestId =
         some { r with status := status, updatedAt := now }) ∧
    (∀ key, key ≠ requestId →
       findRequest (updateRequestStatus store requestId status now) key =
         findRequest store key) ∧
    (findRequest store requestId = none →
       updateRequestStatus store requestId status now = store) := by
  refine ⟨?_, ?_, ?_⟩
  · intro r hr
    have hkey : r.requestId = requestId := findRequest_key hr
    rw [updateRequestStatus, hr, ← hkey]
    exact findRequest_putRequest store _
  · intro key hne
    rw [updateRequestStatus]
    cases hr : findRequest store requestId with
    | none => rfl
    | some r =>
      have hkey : r.requestId = requestId := findRequest_key hr
      exact findRequest_putRequest_ne store _ key (by
        show key ≠ r.requestId
        rw [hkey]
        exact hne)
  · intro h
    rw [updateRequestStatus, h]

/-- A sample request record used to instantiate the store lemmas. -/
def sampleRequest : Request :=
  { requestId := "REQ-1"
    type := .plant
    title := "Plant Code - P001"
    status := "pending-secretary"
    createdBy := "user@pel.com"
    createdAt := 0
    updatedAt := 0
    version := 1 }

theorem updateRequestStatus_spec_witness :
    findRequest [sampleRequest] "REQ-1" = some sampleRequest ∧
    findRequest (updateRequestStatus [sampleRequest] "REQ-1" "approved" 5)
        "REQ-1" =
      some { sampleRequest with status := "approved", updatedAt := 5 } :=
  ⟨rfl,
   (updateRequestStatus_spec [sampleRequest] "REQ-1" "approved" 5).1
     sampleRequest rfl⟩

/-- C5: `markRequestCompleted` stamps an existing request completed — status
`'completed'`, `isCompleted`, `completedAt` and `updatedAt` at the completion
instant, turnaround time the ceiling of the elapsed days since `createdAt` —
and records an `'update-sap'` history entry carrying the turnaround time; a
missing id changes neither store. -/
theorem markRequestCompleted_spec (requests : List Request)
    (logs : List HistoryLog) (requestId completedBy : String) (now : Int) :
    (∀ r, findRequest requests requestId = some r →
       findRequest
           (markRequestCompleted requests logs requestId completedBy now).1
           requestId =
         some { r with
           status := "completed"
           isCompleted := some true
           completedAt := some now
           turnaroundTime := some (ceilOfDiv (now - r.createdAt) msPerDay)
           updatedAt := now } ∧
       ({ requestId := requestId
          action := "update-sap"
          user := completedBy
          timestamp := now
          metadata :=
            [("turnaroundTime",
              JSValue.num (ceilOfDiv (now - r.createdAt) msPerDay)),
             ("completedBy", JSValue.str completedBy)] } : HistoryLog) ∈
         (markRequestCompleted requests logs requestId completedBy now).2) ∧
    (findRequest requests requestId = none →
       markRequestCompleted requests logs requestId completedBy now =
         (requests, logs)) := by
  refine ⟨?_, ?_⟩
  · intro r hr
    have hkey : r.requestId = requestId := findRequest_key hr
    constructor
    · show findRequest
          (match findRequest requests requestId with
            | none => (requests, logs)
            | some request => _).1 requestId = _
      rw [hr, ← hkey]
      exact findRequest_putRequest requests _
    · show _ ∈ (match findRequest requests requestId with
        | none => (requests, logs)
        | some request => _).2
      rw [hr]
      exact mem_putHistoryLog logs _
  · intro h
    rw [markRequestCompleted, h]

theorem markRequestCompleted_spec_witness :
    findRequest [sampleRequest] "REQ-1" = some sampleRequest ∧
    findRequest
        (markRequestCompleted [sampleRequest] [] "REQ-1" "it@pel.com"
          86400001).1 "REQ-1" =
      some { sampleRequest with
        status := "completed"
        isCompleted := some true
        completedAt := some 86400001
        turnaroundTime := some 2
        updatedAt := 86400001 } :=
  ⟨rfl,
   ((markRequestCompleted_spec [sampleRequest] [] "REQ-1" "it@pel.com"
       86400001).1 sampleRequest rfl).1⟩

/-- The linear approval chain of the dashboard, in order. -/
def approvalChain : List String :=
  ["pending", "secretary-review", "finance-review", "raghu-review",
   "siva-review", "approved"]

/-- C2: `getNextStatus` with an approval walks the fixed linear chain
`pending → secretary-review → finance-review → raghu-review → siva-review →
approved`; `canApprove` permits exactly the roles secretary, finance, raghu,
siva on the four statuses of its table, in that order; and any rejection
yields `'rejected'` whatever the status and role. -/
theorem approvalDashboard_chain_spec :
    List.Chain' (fun a b => ∀ role, getNextStatus a role .approved = b)
      approvalChain ∧
    (∀ s r, canApprove s r = true ↔
      (s, r) ∈ [("pending", "secretary"), ("secretary-review", "finance"),
                ("finance-review", "raghu"), ("raghu-review", "siva")]) ∧
    (∀ s r, getNextStatus s r .rejected = "rejected") := by
  refine ⟨?_, ?_, fun s r => rfl⟩
  · simp only [approvalChain, List.chain'_cons, List.chain'_singleton,
      and_true]
    exact ⟨fun r => rfl, fun r => rfl, fun r => rfl, fun r => rfl,
      fun r => rfl⟩
  · intro s r
    by_cases h1 : s = "pending"
    · subst h1
      show ("secretary" == r) = true ↔ _
      rw [beq_iff_eq]
      simp [Prod.mk.injEq]
      exact eq_comm
    · by_cases h2 : s = "secretary-review"
      · subst h2
        show ("finance" == r) = true ↔ _
        rw [beq_iff_eq]
        simp [Prod.mk.injEq]
        exact eq_comm
      · by_cases h3 : s = "finance-review"
        · subst h3
          show ("raghu" == r) = true ↔ _
          rw [beq_iff_eq]
          simp [Prod.mk.injEq]
          exact eq_comm
        · by_cases h4 : s = "raghu-review"
          · subst h4
            show ("siva" == r) = true ↔ _
            rw [beq_iff_eq]
            simp [Prod.mk.injEq]
            exact eq_comm
          · have hb1 : (s == "pending") = false := beq_eq_false_iff_ne.mpr h1
            have hb2 : (s == "secretary-review") = false :=
              beq_eq_false_iff_ne.mpr h2
            have hb3 : (s == "finance-review") = false :=
              beq_eq_false_iff_ne.mpr h3
            have hb4 : (s == "raghu-review") = false :=
              beq_eq_false_iff_ne.mpr h4
            simp only [canApprove, statusRoleMap, List.lookup, hb1, hb2, hb3,
              hb4]
            simp [Prod.mk.injEq, h1, h2, h3, h4]

/-- C1 (evidence for the status-vocabulary mismatch): a change request saved
by the plant form carries status `'pending-secretary'`, yet the
`ApprovalDashboard` lets no role act on that status (`canApprove` is `false`
for every role) and an approval decision leaves the status unchanged, so the
request can never advance through that dashboard. -/
theorem submitted_request_stuck (st : StoreState)
    (originalData : PlantCodeDetails) (formData : PlantFormData)
    (userEmail origRequestId newRequestId : String) (now : Int)
    (hch : (compareObjects (plantDetailsToObj originalData)
        (plantFormToObj formData) .plant).hasChanges = true) :
    ∃ r, findRequest (submitPlantChangeRequest st originalData formData
          userEmail origRequestId newRequestId now).requests newRequestId =
        some r ∧
      r.status = "pending-secretary" ∧
      (∀ role, canApprove r.status role = false) ∧
      (∀ role, getNextStatus r.status role .approved = r.status) := by
  refine ⟨{ requestId := newRequestId
            type := .plant
            title := "Change Request - " ++ formData.plantCode
            status := "pending-secretary"
            createdBy := userEmail
            createdAt := now
            updatedAt := now
            version := 1 }, ?_, rfl, fun role => rfl, fun role => rfl⟩
  simp only [submitPlantChangeRequest]
  rw [if_neg (by simp [hch])]
  exact findRequest_putRequest st.requests _

/-- C7 counterexample: counting the nine literals of the `Request.status`
union type together with the statuses the dashboard transition function can
produce gives 13 distinct values, outside the claimed range of 5 to 8. -/
theorem statusUniverse_count_out_of_range :
    ¬(5 ≤ statusUniverse.length ∧ statusUniverse.length ≤ 8) := by decide

/-- C7 amended: the set of distinct status values — the nine `Request.status`
literals plus the four review statuses only the transition function produces —
has exactly 13 elements. -/
theorem statusUniverse_count :
    statusUniverse =
      ["draft", "pending-secretary", "pending-siva", "pending-raghu",
       "pending-manoj", "approved", "rejected", "sap-updated", "completed",
       "secretary-review", "finance-review", "raghu-review", "siva-review"] ∧
    statusUniverse.length = 13 := by decide

/-- C8: the terminal statuses `'approved'` and `'rejected'` admit no approver
(`canApprove` is false for every role), an approval decision does not move
them, and consequently no sequence of dashboard approval steps leaves them. -/
theorem terminal_statuses_absorbing :
    (∀ role, canApprove "approved" role = false ∧
       canApprove "rejected" role = false ∧
       getNextStatus "approved" role .approved = "approved" ∧
       getNextStatus "rejected" role .approved = "rejected") ∧
    (∀ t s', (t = "approved" ∨ t = "rejected") →
       Relation.ReflTransGen ApprovalStep t s' → s' = t) := by
  have hca : ∀ role, canApprove "approved" role = false := fun role => rfl
  have hcr : ∀ role, canApprove "rejected" role = false := fun role => rfl
  refine ⟨fun role => ⟨hca role, hcr role, rfl, rfl⟩, ?_⟩
  intro t s' ht h
  induction h with
  | refl => rfl
  | tail _ hstep ih =>
    rcases hstep with ⟨role, decision, hcan, _⟩
    rw [ih] at hcan
    rcases ht with rfl | rfl
    · rw [hca role] at hcan; cases hcan
    · rw [hcr role] at hcan; cases hcan

theorem terminal_statuses_absorbing_witness :
    ("approved" = "approved" ∨ "approved" = "rejected") ∧
      "approved" = "approved" :=
  ⟨Or.inl rfl,
   terminal_statuses_absorbing.2 "approved" "approved" (Or.inl rfl)
     Relation.ReflTransGen.refl⟩

/-- C3: `compareObjects` reports exactly the non-metadata fields of either
object whose values differ after the conversion `String(value || '')`;
`hasChanges` holds exactly when some change was collected, and
`changedFields` lists the fields of the collected changes. -/
theorem compareObjects_spec (oldObj newObj : JSObj) (type : ReqType) :
    (∀ f, f ∈ (compareObjects oldObj newObj type).changedFields ↔
       f ∈ objKeys oldObj ++ objKeys newObj ∧
       f ∉ metadataFields ∧
       stringOrEmpty (getField oldObj f) ≠
         stringOrEmpty (getField newObj f)) ∧
    ((compareObjects oldObj newObj type).hasChanges = true ↔
       (compareObjects oldObj newObj type).changes ≠ []) ∧
    ((compareObjects oldObj newObj type).changedFields =
       (compareObjects oldObj newObj type).changes.map FieldChange.field) := by
  refine ⟨fun f => mem_changedFields_iff oldObj newObj type f, ?_, rfl⟩
  have hrfl : (compareObjects oldObj newObj type).hasChanges =
      !(compareObjects oldObj newObj type).changes.isEmpty := rfl
  rw [hrfl]
  generalize (compareObjects oldObj newObj type).changes = l
  cases l <;> simp

/-- C9: a field whose values are falsy on both sides is never reported: both
values collapse to the empty string under `String(value || '')`, so the
comparator cannot distinguish them. -/
theorem falsy_fields_never_reported (oldObj newObj : JSObj) (type : ReqType)
    (f : String) (hOld : jsFalsy (getField oldObj f) = true)
    (hNew : jsFalsy (getField newObj f) = true) :
    f ∉ (compareObjects oldObj newObj type).changedFields := by
  rw [mem_changedFields_iff]
  rintro ⟨-, -, hne⟩
  exact hne (by rw [stringOrEmpty, stringOrEmpty, if_pos hOld, if_pos hNew])

theorem falsy_fields_never_reported_witness :
    "shareholdingPercentage" ∉
      (compareObjects [("shareholdingPercentage", JSValue.num 0)] []
        .company).changedFields :=
  falsy_fields_never_reported
    [("shareholdingPercentage", JSValue.num 0)] [] .company
    "shareholdingPercentage" rfl rfl

theorem latestByVersion_spec {α : Type} (ver : α → Int) (l : List α) :
    (latestByVersion ver l = none ↔ l = []) ∧
    (∀ d, latestByVersion ver l = some d →
       d ∈ l ∧ ∀ e ∈ l, ver e ≤ ver d) := by
  have htrans : ∀ a b c : α, decide (ver b ≤ ver a) = true →
      decide (ver c ≤ ver b) = true → decide (ver c ≤ ver a) = true := by
    intro a b c hab hbc
    rw [decide_eq_true_eq] at *
    exact le_trans hbc hab
  have htotal : ∀ a b : α,
      (decide (ver b ≤ ver a) || decide (ver a ≤ ver b)) = true := by
    intro a b
    rw [Bool.or_eq_true, decide_eq_true_eq, decide_eq_true_eq]
    exact le_total _ _
  constructor
  · constructor
    · intro h
      rw [latestByVersion, List.head?_eq_none_iff] at h
      have hp := List.mergeSort_perm l (fun a b => decide (ver b ≤ ver a))
      rw [h] at hp
      exact hp.symm.eq_nil
    · rintro rfl
      rw [latestByVersion, List.mergeSort_nil]
      rfl
  · intro d hd
    rw [latestByVersion] at hd
    obtain ⟨rest, hrest⟩ :
        ∃ rest, l.mergeSort (fun a b => decide (ver b ≤ ver a)) = d :: rest := by
      cases hms : l.mergeSort (fun a b => decide (ver b ≤ ver a)) with
      | nil => rw [hms] at hd; cases hd
      | cons x xs =>
        rw [hms] at hd
        injection hd with hxd
        rw [hxd]
        exact ⟨xs, rfl⟩
    have hperm := List.mergeSort_perm l (fun a b => decide (ver b ≤ ver a))
    constructor
    · have hmem : d ∈ l.mergeSort (fun a b => decide (ver b ≤ ver a)) := by
        rw [hrest]; exact List.mem_cons_self _ _
      exact hperm.mem_iff.mp hmem
    · intro e he
      have he' : e ∈ d :: rest := by
        rw [← hrest]
        exact hperm.mem_iff.mpr he
      rcases List.mem_cons.mp he' with rfl | hr
      · exact le_refl _
      · have hsorted := List.sorted_mergeSort htrans htotal l
        rw [hrest] at hsorted
        have hde := (List.pairwise_cons.mp hsorted).1 e hr
        exact of_decide_eq_true hde

/-- C6: `getLatestRequestDetails` yields null exactly when the request has no
stored detail records and otherwise a record of maximal version among them,
for either request type; and the change-request submission, whose
`originalData` is exactly that latest record, aborts without touching any
store when the diff against it reports no changes. -/
theorem getLatestRequestDetails_spec (plantStore : List PlantCodeDetails)
    (companyStore : List CompanyCodeDetails) (requestId : String) :
    (getLatestRequestDetails plantStore companyStore requestId .plant = none ↔
       plantStore.filter (fun d => d.requestId == requestId) = []) ∧
    (getLatestRequestDetails plantStore companyStore requestId .company =
        none ↔
       companyStore.filter (fun d => d.requestId == requestId) = []) ∧
    (∀ d, getLatestRequestDetails plantStore companyStore requestId .plant =
        some (Sum.inl d) →
       d ∈ plantStore.filter (fun e => e.requestId == requestId) ∧
       ∀ e ∈ plantStore.filter (fun e => e.requestId == requestId),
         e.version ≤ d.version) ∧
    (∀ d, getLatestRequestDetails plantStore companyStore requestId .company =
        some (Sum.inr d) →
       d ∈ companyStore.filter (fun e => e.requestId == requestId) ∧
       ∀ e ∈ companyStore.filter (fun e => e.requestId == requestId),
         e.version ≤ d.version) ∧
    (∀ st formData d userEmail origRequestId newRequestId now,
       getLatestRequestDetails st.plantDetails companyStore requestId .plant =
         some (Sum.inl d) →
       (compareObjects (plantDetailsToObj d) (plantFormToObj formData)
           .plant).hasChanges = false →
       submitPlantChangeRequest st d formData userEmail origRequestId
         newRequestId now = st) := by
  refine ⟨?_, ?_, ?_, ?_, ?_⟩
  · simp only [getLatestRequestDetails, Option.map_eq_none']
    exact (latestByVersion_spec PlantCodeDetails.version _).1
  · simp only [getLatestRequestDetails, Option.map_eq_none']
    exact (latestByVersion_spec CompanyCodeDetails.version _).1
  · intro d hd
    simp only [getLatestRequestDetails] at hd
    have hd' : latestByVersion PlantCodeDetails.version
        (plantStore.filter (fun e => e.requestId == requestId)) = some d := by
      cases hopt : latestByVersion PlantCodeDetails.version
          (plantStore.filter (fun e => e.requestId == requestId)) with
      | none => rw [hopt] at hd; cases hd
      | some x =>
        rw [hopt] at hd
        injection hd with hx
        injection hx with hx2
        rw [hx2]
    exact (latestByVersion_spec PlantCodeDetails.version _).2 d hd'
  · intro d hd
    simp only [getLatestRequestDetails] at hd
    have hd' : latestByVersion CompanyCodeDetails.version
        (companyStore.filter (fun e => e.requestId == requestId)) = some d := by
      cases hopt : latestByVersion CompanyCodeDetails.version
          (companyStore.filter (fun e => e.requestId == requestId)) with
      | none => rw [hopt] at hd; cases hd
      | some x =>
        rw [hopt] at hd
        injection hd with hx
        injection hx with hx2
        rw [hx2]
    exact (latestByVersion_spec CompanyCodeDetails.version _).2 d hd'
  · intro st formData d userEmail origRequestId newRequestId now _ hnc
    simp only [submitPlantChangeRequest]
    rw [if_pos hnc]

/-- A stored plant detail record used to instantiate the theorems. -/
def samplePlantDetails : PlantCodeDetails :=
  { requestId := "REQ-1"
    companyCode := ""
    gstCertificate := ""
    plantCode := "P001"
    nameOfPlant := ""
    addressOfPlant := ""
    purchaseOrganization := ""
    nameOfPurchaseOrganization := ""
    salesOrganization := ""
    nameOfSalesOrganization := ""
    profitCenter := ""
    nameOfProfitCenter := ""
    costCenters := ""
    nameOfCostCenters := ""
    projectCode := ""
    projectCodeDescription := ""
    storageLocationCode := ""
    storageLocationDescription := ""
    version := 1 }

/-- A re-submission of `samplePlantDetails` with no edits. -/
def samplePlantFormUnchanged : PlantFormData :=
  { plantCode := "P001"
    nameOfPlant := ""
    companyCode := ""
    gstCertificate := ""
    addressOfPlant := ""
    purchaseOrganization := ""
    nameOfPurchaseOrganization := ""
    salesOrganization := ""
    nameOfSalesOrganization := ""
    profitCenter := ""
    nameOfProfitCenter := ""
    costCenters := ""
    nameOfCostCenters := ""
    projectCode := ""
    projectCodeDescription := ""
    storageLocationCode := ""
    storageLocationDescription := "" }

/-- A re-submission of `samplePlantDetails` with an edited plant code. -/
def samplePlantFormChanged : PlantFormData :=
  { samplePlantFormUnchanged with plantCode := "P002" }

/-- A store state holding only the sample detail record. -/
def sampleState : StoreState :=
  { requests := []
    plantDetails := [samplePlantDetails]
    historyLogs := [] }

theorem submitted_request_stuck_witness :
    (compareObjects (plantDetailsToObj samplePlantDetails)
        (plantFormToObj samplePlantFormChanged) .plant).hasChanges = true ∧
    ∃ r, findRequest (submitPlantChangeRequest sampleState samplePlantDetails
          samplePlantFormChanged "user@pel.com" "REQ-1" "REQ-2" 7).requests
          "REQ-2" = some r ∧
      r.status = "pending-secretary" ∧
      (∀ role, canApprove r.status role = false) ∧
      (∀ role, getNextStatus r.status role .approved = r.status) :=
  ⟨by decide,
   submitted_request_stuck sampleState samplePlantDetails
     samplePlantFormChanged "user@pel.com" "REQ-1" "REQ-2" 7 (by decide)⟩

theorem getLatestRequestDetails_spec_witness :
    getLatestRequestDetails sampleState.plantDetails [] "REQ-1" .plant =
      some (Sum.inl samplePlantDetails) ∧
    (compareObjects (plantDetailsToObj samplePlantDetails)
        (plantFormToObj samplePlantFormUnchanged) .plant).hasChanges = false ∧
    submitPlantChangeRequest sampleState samplePlantDetails
      samplePlantFormUnchanged "user@pel.com" "REQ-1" "REQ-2" 7 = sampleState := by
  have h1 : getLatestRequestDetails sampleState.plantDetails [] "REQ-1"
      .plant = some (Sum.inl samplePlantDetails) := by
    have hfil : sampleState.plantDetails.filter
        (fun d => d.requestId == "REQ-1") = [samplePlantDetails] := rfl
    simp only [getLatestRequestDetails, hfil, latestByVersion]
    rw [List.mergeSort_singleton]
    rfl
  have h2 : (compareObjects (plantDetailsToObj samplePlantDetails)
      (plantFormToObj samplePlantFormUnchanged) .plant).hasChanges = false := by
    decide
  exact ⟨h1, h2,
    (getLatestRequestDetails_spec sampleState.plantDetails [] "REQ-1").2.2.2.2
      sampleState samplePlantFormUnchanged samplePlantDetails "user@pel.com"
      "REQ-1" "REQ-2" 7 h1 h2⟩
